import Mathlib

/-
Verification of the async event-queue and Copilot session bridging layer of
the caret plugin's LLM adapter (`llm_calls` module).

The TypeScript source is embedded shallowly:
  * `AsyncEventQueue<T>` becomes a Lean structure holding the buffered list,
    the number of pending consumer continuations (resolvers and rejecters are
    always pushed and shifted in pairs, so one counter suffices), the `done`
    flag, the optional terminal error (errors are modelled by their message
    string), and `maxSize`.
  * Each method (`push`, `complete`, `fail`, the iterator's `next`) becomes a
    pure state-transition function.  `push`, `complete` and `fail` also return
    the list of signals handed to previously-pending consumers, mirroring the
    promise resolutions performed inside the method bodies.
  * The Copilot streaming helper (`copilot_sdk_streaming`) is embedded as a
    state record (two queues plus lifecycle flags) with the event handler,
    `performCleanup`, `abort` and the dispatch path as transition functions.
  * Fallible code returns `Except`; JavaScript `||` defaulting on strings is
    modelled explicitly (empty string is falsy).
-/

set_option maxHeartbeats 1000000

namespace Caret

/-- Result of one `next()` call on the async iterator:
a yielded value, a `done: true` completion, a rejection with an error,
or suspension (a promise parked on the resolver/rejecter arrays). -/
inductive NextResult (T : Type) where
  | value : T → NextResult T
  | done : NextResult T
  | error : String → NextResult T
  | suspended : NextResult T
deriving DecidableEq, Repr

/-- Signal handed to a formerly-pending consumer by `push`, `complete` or
`fail` (the resolver/rejecter invocations inside those methods). -/
inductive QueueSignal (T : Type) where
  | value : T → QueueSignal T
  | done : QueueSignal T
  | error : String → QueueSignal T
deriving DecidableEq, Repr

/-- State of `AsyncEventQueue<T>` (src/unnamed/part_000, lines 47-57).
`pending` is the common length of the `resolvers` and `rejecters` arrays,
which the source always grows and shrinks in lockstep. -/
structure AsyncEventQueue (T : Type) where
  queue : List T
  pending : Nat
  done : Bool
  error : Option String
  maxSize : Nat
deriving DecidableEq, Repr

/-- Constructor `new AsyncEventQueue(maxSize)`: empty buffer, no pending
consumers, not done, no error. -/
def AsyncEventQueue.new (T : Type) (maxSize : Nat) : AsyncEventQueue T :=
  ⟨[], 0, false, none, maxSize⟩

/-- Method `push(value)` (lines 63-78): no-op when done; if a consumer is
pending, resolve the oldest one with the value; otherwise buffer it, first
shifting the oldest buffered value off when the buffer is at `maxSize`. -/
def AsyncEventQueue.push {T : Type} (q : AsyncEventQueue T) (v : T) :
    AsyncEventQueue T × List (QueueSignal T) :=
  if q.done then (q, [])
  else if 0 < q.pending then
    ({ q with pending := q.pending - 1 }, [QueueSignal.value v])
  else if q.maxSize ≤ q.queue.length then
    ({ q with queue := q.queue.drop 1 ++ [v] }, [])
  else
    ({ q with queue := q.queue ++ [v] }, [])

/-- Method `complete()` (lines 83-90): set `done` and resolve every pending
consumer with an end-of-sequence result. -/
def AsyncEventQueue.complete {T : Type} (q : AsyncEventQueue T) :
    AsyncEventQueue T × List (QueueSignal T) :=
  ({ q with done := true, pending := 0 },
   List.replicate q.pending (QueueSignal.done))

/-- Method `fail(error)` (lines 95-104): record the error, set `done`, and
reject every pending consumer with the error. -/
def AsyncEventQueue.fail {T : Type} (q : AsyncEventQueue T) (e : String) :
    AsyncEventQueue T × List (QueueSignal T) :=
  ({ q with error := some e, done := true, pending := 0 },
   List.replicate q.pending (QueueSignal.error e))

/-- The iterator's `next()` (lines 111-129): drain the buffer first, then
surface the terminal error, then the done signal, else suspend the caller
(park a resolver/rejecter pair). -/
def AsyncEventQueue.next {T : Type} (q : AsyncEventQueue T) :
    NextResult T × AsyncEventQueue T :=
  match q.queue with
  | v :: rest => (NextResult.value v, { q with queue := rest })
  | [] =>
    match q.error with
    | some e => (NextResult.error e, q)
    | none =>
      if q.done then (NextResult.done, q)
      else (NextResult.suspended, { q with pending := q.pending + 1 })

/-- Producer performing a sequence of `push` calls, left to right. -/
def AsyncEventQueue.pushAll {T : Type} (q : AsyncEventQueue T) (vs : List T) :
    AsyncEventQueue T :=
  vs.foldl (fun acc v => (acc.push v).1) q

/-- Queue state after the consumer has performed `n` successive `next` calls. -/
def AsyncEventQueue.afterPulls {T : Type} (q : AsyncEventQueue T) :
    Nat → AsyncEventQueue T
  | 0 => q
  | n + 1 => ((q.next).2).afterPulls n

/-- Result observed by the consumer's `(n+1)`-th `next` call (zero-indexed). -/
def AsyncEventQueue.pullAt {T : Type} (q : AsyncEventQueue T) (n : Nat) :
    NextResult T :=
  ((q.afterPulls n).next).1

/- Copilot streaming session model (src/unnamed/part_000, lines 325-464). -/

/-- Message roles accepted by the `MessageSchema` validator (lines 19-22). -/
inductive Role where
  | system : Role
  | user : Role
  | assistant : Role
deriving DecidableEq, Repr

/-- Validated conversation message: `{role, content}`. -/
structure Message where
  role : Role
  content : String
deriving DecidableEq, Repr

/-- JavaScript `||` on an optional string with a default: `undefined`, `null`
and the empty string are all falsy, so they yield the default. -/
def jsOrString (v : Option String) (dflt : String) : String :=
  match v with
  | some s => if s = "" then dflt else s
  | none => dflt

/-- Observable state of one `copilot_sdk_streaming` call: the two output
queues, the one-shot cleanup flag, whether the router subscription has been
removed, how many times `session.destroy()` has been invoked, how many
teardown failures were logged via `console.warn`, and whether
`session.abort()` has been signalled. -/
structure CopilotStreamState where
  textQueue : AsyncEventQueue String
  reasoningQueue : AsyncEventQueue String
  cleanedUp : Bool
  unsubscribed : Bool
  destroyCalls : Nat
  warnCount : Nat
  sessionAborted : Bool
deriving DecidableEq, Repr

/-- State right after `createSession` and queue construction (lines 341-349):
two fresh queues with the default capacity 1000, nothing cleaned up. -/
def initialStreamState : CopilotStreamState :=
  ⟨AsyncEventQueue.new String 1000, AsyncEventQueue.new String 1000,
   false, false, 0, 0, false⟩

/-- Invocation of `session.destroy()`: the call is always counted; the
`destroyThrows` flag says whether this invocation raises, in which case the
raised error message is reported alongside the post-call state. -/
def sessionDestroy (destroyThrows : Bool) (st : CopilotStreamState) :
    CopilotStreamState × Option String :=
  ({ st with destroyCalls := st.destroyCalls + 1 },
   if destroyThrows then some "destroy failed" else none)

/-- The `performCleanup` closure (lines 351-360): return immediately when the
one-shot flag is set; otherwise set it, unsubscribe, and `try`/`catch` the
destroy call, logging (never re-raising) its failure. -/
def performCleanup (destroyThrows : Bool) (st : CopilotStreamState) :
    CopilotStreamState :=
  if st.cleanedUp then st
  else
    let st1 := { st with cleanedUp := true, unsubscribed := true }
    match sessionDestroy destroyThrows st1 with
    | (st2, some _) => { st2 with warnCount := st2.warnCount + 1 }
    | (st2, none) => st2

/-- A sequence of cleanup invocations from arbitrary triggers; each element
of `flags` tells whether that invocation's `session.destroy()` would throw. -/
def cleanupMany (flags : List Bool) (st : CopilotStreamState) :
    CopilotStreamState :=
  flags.foldl (fun s f => performCleanup f s) st

/-- Raw session events as the handler's runtime checks classify them
(lines 362-398).  The `Option String` payloads model
`event.data?.deltaContent` / `event.data?.message` being a string or not;
`invalid` covers events with no string `type` tag and unrecognized kinds. -/
inductive SessionEvent where
  | messageDelta : Option String → SessionEvent
  | reasoningDelta : Option String → SessionEvent
  | sessionError : Option String → SessionEvent
  | sessionIdle : SessionEvent
  | invalid : SessionEvent
deriving DecidableEq, Repr

/-- The subscribed event handler body (lines 362-398): deltas are pushed onto
the matching queue when the payload is a string; `session.error` builds the
descriptive error, fails both queues and performs cleanup; `session.idle`
completes both queues; anything else is logged and ignored. -/
def handleEvent (destroyThrows : Bool) (st : CopilotStreamState)
    (ev : SessionEvent) : CopilotStreamState :=
  match ev with
  | SessionEvent.messageDelta (some s) =>
      { st with textQueue := (st.textQueue.push s).1 }
  | SessionEvent.messageDelta none => st
  | SessionEvent.reasoningDelta (some s) =>
      { st with reasoningQueue := (st.reasoningQueue.push s).1 }
  | SessionEvent.reasoningDelta none => st
  | SessionEvent.sessionError msg =>
      let e := "Copilot streaming error: " ++ jsOrString msg "Unknown error"
      performCleanup destroyThrows
        { st with textQueue := (st.textQueue.fail e).1,
                  reasoningQueue := (st.reasoningQueue.fail e).1 }
  | SessionEvent.sessionIdle =>
      { st with textQueue := (st.textQueue.complete).1,
                reasoningQueue := (st.reasoningQueue.complete).1 }
  | SessionEvent.invalid => st

/-- Delivery of a raw session event: the handler only runs while the
subscription is in place (`unsubscribe()` removes the listener). -/
def deliverEvent (destroyThrows : Bool) (st : CopilotStreamState)
    (ev : SessionEvent) : CopilotStreamState :=
  if st.unsubscribed then st else handleEvent destroyThrows st ev

/-- The `abort` control returned to the caller (lines 419-423):
`session.abort()` then `complete()` on both queues.  It neither unsubscribes
nor sets the cleanup flag. -/
def abortStream (st : CopilotStreamState) : CopilotStreamState :=
  { st with sessionAborted := true,
            textQueue := (st.textQueue.complete).1,
            reasoningQueue := (st.reasoningQueue.complete).1 }

/-- Outcome of `copilot_sdk_streaming` (lines 325-426): a synchronous throw
when no user message exists, a re-raised dispatch error (with the state at
the moment of the throw) when `session.send` fails, or the returned stream
handle's initial state together with the prompt that was dispatched. -/
inductive CopilotOutcome where
  | noUserMessage : CopilotOutcome
  | dispatchFailed : String → CopilotStreamState → CopilotOutcome
  | streaming : CopilotStreamState → String → CopilotOutcome
deriving DecidableEq, Repr

/-- Embedding of `copilot_sdk_streaming` up to and including the dispatch of
the outbound message.  `sendFailure` models whether `session.send` throws
(and with which error); `destroyThrows` models whether a destroy performed on
the failure path would itself throw.  Session events delivered after the
function returns are modelled separately by `deliverEvent`. -/
def copilot_sdk_streaming (conversation : List Message)
    (sendFailure : Option String) (destroyThrows : Bool) : CopilotOutcome :=
  match (conversation.filter (fun m => m.role == Role.user)).getLast? with
  | none => CopilotOutcome.noUserMessage
  | some lastUserMessage =>
    match sendFailure with
    | some err =>
        let st1 := { initialStreamState with
          textQueue := ((initialStreamState.textQueue).fail err).1,
          reasoningQueue := ((initialStreamState.reasoningQueue).fail err).1 }
        CopilotOutcome.dispatchFailed err (performCleanup destroyThrows st1)
    | none => CopilotOutcome.streaming initialStreamState lastUserMessage.content

/-- Payload shape of the `sendAndWait` response: `response?.data?.content`
with every step possibly absent. -/
structure CopilotResponseData where
  content : Option String
deriving DecidableEq, Repr

/-- Response wrapper of `sendAndWait`. -/
structure CopilotResponse where
  data : Option CopilotResponseData
deriving DecidableEq, Repr

/-- Embedding of `copilot_sdk_completion` (lines 428-464): throw when no user
message exists (before any session is created, destroy count 0); otherwise
create a session and `try { sendAndWait } finally { destroy }`, where the
result is `response?.data?.content || ""` on success and the re-raised error
on failure, and the `finally` block always runs destroy exactly once with its
own failure caught and logged — because that failure is swallowed, nothing
the caller sees depends on whether destroy throws. -/
def copilot_sdk_completion (conversation : List Message)
    (sendAndWaitResult : Except String (Option CopilotResponse))
    (_destroyThrows : Bool) : Except String String × Nat :=
  match (conversation.filter (fun m => m.role == Role.user)).getLast? with
  | none => (Except.error "No user message found in conversation", 0)
  | some _ =>
    match sendAndWaitResult with
    | Except.error e => (Except.error e, 1)
    | Except.ok response =>
        let content :=
          jsOrString ((response.bind (fun r => r.data)).bind
            (fun d => d.content)) ""
        (Except.ok content, 1)

/- Structured generation model (src/unnamed/part_000, lines 277-312). -/

/-- Untyped JSON-like value, the common currency of schema validation and of
the ai-sdk result object. -/
inductive JsValue where
  | str : String → JsValue
  | num : Nat → JsValue
  | obj : List (String × JsValue) → JsValue

/-- Result record of the external `generateObject` call: the generated
object plus response metadata (modelled by a usage counter). -/
structure GenerateObjectResult where
  object : JsValue
  usage : Nat

/-- The result record seen as the JavaScript object value that
`return response` hands back: a record with an `object` field and further
metadata fields, not the generated object itself. -/
def GenerateObjectResult.toJsValue (r : GenerateObjectResult) : JsValue :=
  JsValue.obj [("object", r.object), ("usage", JsValue.num r.usage)]

/-- Modelled from the spec: the external ai-sdk `generateObject` collaborator
(not part of this repository) generates a value and validates it against the
caller-supplied schema; it resolves with a result record whose `object`
field is the schema-conforming value, and rejects when the backend output
does not conform.  The schema is modelled as a Boolean validator and the
backend's raw output as an explicit input. -/
def generateObject (validate : JsValue → Bool) (backendOutput : JsValue)
    (usage : Nat) : Except String GenerateObjectResult :=
  if validate backendOutput then Except.ok ⟨backendOutput, usage⟩
  else Except.error "schema validation failed"

/-- Embedding of `ai_sdk_structured` (lines 277-312): both branches await
`generateObject`; the openrouter branch returns the whole `response` record
(line 300), the default branch returns `response.object` (line 311). -/
def ai_sdk_structured (provider_name : String) (validate : JsValue → Bool)
    (backendOutput : JsValue) (usage : Nat) : Except String JsValue :=
  match generateObject validate backendOutput usage with
  | Except.error e => Except.error e
  | Except.ok response =>
      if provider_name = "openrouter" then Except.ok response.toJsValue
      else Except.ok response.object

/-- Schema used at the concrete failing input: accepts exactly strings. -/
def isStringSchema (v : JsValue) : Bool :=
  match v with
  | JsValue.str _ => true
  | _ => false

/- Helper lemmas about the queue embedding. -/

theorem AsyncEventQueue.pushAll_nil {T : Type} (q : AsyncEventQueue T) :
    q.pushAll [] = q := rfl

theorem AsyncEventQueue.pushAll_cons {T : Type} (q : AsyncEventQueue T)
    (v : T) (vs : List T) :
    q.pushAll (v :: vs) = ((q.push v).1).pushAll vs := rfl

/-- When the queue is live, no consumer is pending and the whole batch fits,
`pushAll` simply appends the batch to the buffer. -/
theorem AsyncEventQueue.pushAll_append {T : Type} (vs : List T) :
    ∀ q : AsyncEventQueue T, q.done = false → q.pending = 0 →
      q.queue.length + vs.length ≤ q.maxSize →
      q.pushAll vs = { q with queue := q.queue ++ vs } := by
  induction vs with
  | nil =>
    intro q _ _ _
    simp [AsyncEventQueue.pushAll_nil]
  | cons v rest ih =>
    intro q hdone hp hfit
    rw [AsyncEventQueue.pushAll_cons]
    have hlt : ¬ q.maxSize ≤ q.queue.length := by
      simp only [List.length_cons] at hfit
      omega
    have hpush : (q.push v).1 = { q with queue := q.queue ++ [v] } := by
      simp [AsyncEventQueue.push, hdone, hp, hlt]
    rw [hpush]
    have := ih { q with queue := q.queue ++ [v] } (by simp [hdone])
      (by simp [hp]) (by simp only [List.length_append, List.length_cons,
        List.length_nil] at hfit ⊢; omega)
    rw [this]
    simp

/-- Once the queue is terminal (done or failed), each `next` call just pops
the head of the buffer (or leaves the state unchanged when it is empty), so
`n` pulls drop the first `n` buffered values. -/
theorem AsyncEventQueue.afterPulls_terminal {T : Type} (n : Nat) :
    ∀ q : AsyncEventQueue T, (q.done = true ∨ q.error ≠ none) →
      q.afterPulls n = { q with queue := q.queue.drop n } := by
  induction n with
  | zero =>
    intro q _
    simp [AsyncEventQueue.afterPulls]
  | succ n ih =>
    intro q hterm
    show ((q.next).2).afterPulls n = _
    match hq : q.queue with
    | v :: rest =>
      have hnext : (q.next).2 = { q with queue := rest } := by
        simp [AsyncEventQueue.next, hq]
      rw [hnext, ih { q with queue := rest } (by simpa using hterm)]
      simp [hq]
    | [] =>
      have hnext : (q.next).2 = q := by
        rcases hterm with hd | he
        · simp only [AsyncEventQueue.next, hq]
          cases herr : q.error with
          | some e => simp
          | none => simp [hd]
        · cases herr : q.error with
          | some e => simp [AsyncEventQueue.next, hq, herr]
          | none => exact absurd herr he
      rw [hnext, ih q hterm]
      simp [hq]

/-- C1.  After pushing any batch `vs` (no pending consumer, no overflow) and
a single `complete()`, a consumer calling `next` repeatedly observes exactly
the pushed values in push order — the `i`-th pull yields `vs[i]` — and every
pull from the `|vs|`-th on reports end-of-sequence; the terminal signal is
never seen before all pushed values, and `complete` resolves no consumer
spuriously. -/
theorem c1_push_complete_fifo {T : Type} (C : Nat) (vs : List T)
    (hfit : vs.length ≤ C) :
    (∀ i (h : i < vs.length),
      ((((AsyncEventQueue.new T C).pushAll vs).complete).1).pullAt i =
        NextResult.value (vs.get ⟨i, h⟩)) ∧
    (∀ n, vs.length ≤ n →
      ((((AsyncEventQueue.new T C).pushAll vs).complete).1).pullAt n =
        NextResult.done) ∧
    (((AsyncEventQueue.new T C).pushAll vs).complete).2 = [] := by
  have hpush : (AsyncEventQueue.new T C).pushAll vs =
      { AsyncEventQueue.new T C with queue := vs } := by
    have := AsyncEventQueue.pushAll_append vs (AsyncEventQueue.new T C)
      rfl rfl (by simpa [AsyncEventQueue.new] using hfit)
    simpa [AsyncEventQueue.new] using this
  have hstate : ((((AsyncEventQueue.new T C).pushAll vs).complete).1) =
      ⟨vs, 0, true, none, C⟩ := by
    rw [hpush]; rfl
  refine ⟨?_, ?_, ?_⟩
  · intro i h
    rw [AsyncEventQueue.pullAt, hstate,
      AsyncEventQueue.afterPulls_terminal i _ (Or.inl rfl)]
    have hdrop : vs.drop i = vs.get ⟨i, h⟩ :: vs.drop (i + 1) :=
      List.drop_eq_getElem_cons h
    simp only [AsyncEventQueue.next, hdrop]
  · intro n hn
    rw [AsyncEventQueue.pullAt, hstate,
      AsyncEventQueue.afterPulls_terminal n _ (Or.inl rfl)]
    have hdrop : vs.drop n = [] := List.drop_eq_nil_of_le hn
    simp [AsyncEventQueue.next, hdrop]
  · rw [hpush]
    simp [AsyncEventQueue.complete, AsyncEventQueue.new]

/-- Witness for C1 at a concrete batch: capacity 5, values "a","b","c". -/
theorem c1_push_complete_fifo_witness :
    ((((AsyncEventQueue.new String 5).pushAll ["a", "b", "c"]).complete).1).pullAt 0 =
      NextResult.value "a" ∧
    ((((AsyncEventQueue.new String 5).pushAll ["a", "b", "c"]).complete).1).pullAt 2 =
      NextResult.value "c" ∧
    ((((AsyncEventQueue.new String 5).pushAll ["a", "b", "c"]).complete).1).pullAt 3 =
      NextResult.done := by
  have h := c1_push_complete_fifo 5 ["a", "b", "c"] (by decide)
  exact ⟨h.1 0 (by decide), h.1 2 (by decide), h.2.1 3 (by decide)⟩

/-- C2.  When `fail(e)` arrives after a batch of pushes (no pull yet, batch
within capacity), the consumer still receives every pushed value first, in
push order, and every pull from the `|vs|`-th on rejects with exactly `e`:
buffered values are never discarded because of the later error. -/
theorem c2_fail_after_pushes_drains_first {T : Type} (C : Nat) (vs : List T)
    (e : String) (hfit : vs.length ≤ C) :
    (∀ i (h : i < vs.length),
      ((((AsyncEventQueue.new T C).pushAll vs).fail e).1).pullAt i =
        NextResult.value (vs.get ⟨i, h⟩)) ∧
    (∀ n, vs.length ≤ n →
      ((((AsyncEventQueue.new T C).pushAll vs).fail e).1).pullAt n =
        NextResult.error e) := by
  have hpush : (AsyncEventQueue.new T C).pushAll vs =
      { AsyncEventQueue.new T C with queue := vs } := by
    have := AsyncEventQueue.pushAll_append vs (AsyncEventQueue.new T C)
      rfl rfl (by simpa [AsyncEventQueue.new] using hfit)
    simpa [AsyncEventQueue.new] using this
  have hstate : ((((AsyncEventQueue.new T C).pushAll vs).fail e).1) =
      ⟨vs, 0, true, some e, C⟩ := by
    rw [hpush]; rfl
  constructor
  · intro i h
    rw [AsyncEventQueue.pullAt, hstate,
      AsyncEventQueue.afterPulls_terminal i _ (Or.inl rfl)]
    have hdrop : vs.drop i = vs.get ⟨i, h⟩ :: vs.drop (i + 1) :=
      List.drop_eq_getElem_cons h
    simp only [AsyncEventQueue.next, hdrop]
  · intro n hn
    rw [AsyncEventQueue.pullAt, hstate,
      AsyncEventQueue.afterPulls_terminal n _ (Or.inl rfl)]
    have hdrop : vs.drop n = [] := List.drop_eq_nil_of_le hn
    simp [AsyncEventQueue.next, hdrop]

/-- Witness for C2: two values then `fail "boom"`; pulls see "a", "b", then
the rejection. -/
theorem c2_fail_after_pushes_drains_first_witness :
    ((((AsyncEventQueue.new String 4).pushAll ["a", "b"]).fail "boom").1).pullAt 1 =
      NextResult.value "b" ∧
    ((((AsyncEventQueue.new String 4).pushAll ["a", "b"]).fail "boom").1).pullAt 2 =
      NextResult.error "boom" := by
  have h := c2_fail_after_pushes_drains_first 4 ["a", "b"] "boom" (by decide)
  exact ⟨h.1 1 (by decide), h.2 2 (by decide)⟩

/-- C3 counterexample.  The claim quantifies over queues that are already
terminal "whether it became terminal via complete or via fail".  A queue
completed normally and then hit with `fail "late"` changes what the consumer
observes: before the second terminal call the first pull reports
end-of-sequence, afterwards it rejects with "late", because `fail` sets the
`error` field unconditionally and `next` checks `error` before `done`. -/
theorem c3_counterexample :
    ((((AsyncEventQueue.new String 1000).complete).1.fail "late").1).pullAt 0 =
      NextResult.error "late" ∧
    (((AsyncEventQueue.new String 1000).complete).1).pullAt 0 =
      NextResult.done := by
  exact ⟨rfl, rfl⟩

/-- C3 amended.  `complete()` is idempotent: re-invoking it on any terminal
queue (terminal via `complete` or via `fail`, with no consumer pending, as is
guaranteed once terminal) leaves the state unchanged and resolves nobody;
`fail(E)` re-invoked with the same error `E` is likewise a no-op; and neither
throws (both are total state transitions).  However `fail` invoked on a queue
that is terminal without that error (completed, or failed with a different
error) overwrites the terminal signal, so subsequent `next` calls on an empty
buffer reject with the new error instead of reporting the previous terminal
result. -/
theorem c3_amended_terminal_idempotence {T : Type} (q : AsyncEventQueue T)
    (hdone : q.done = true) (hp : q.pending = 0) :
    q.complete = (q, []) ∧ ∀ e, q.error = some e → q.fail e = (q, []) := by
  obtain ⟨qs, p, d, er, m⟩ := q
  simp only at hdone hp
  subst hdone hp
  constructor
  · simp [AsyncEventQueue.complete]
  · intro e he
    simp only at he
    subst he
    simp [AsyncEventQueue.fail]

/-- Witness for the amended C3 at a failed queue: both a repeated `complete`
and a repeated `fail` with the same error leave it unchanged. -/
theorem c3_amended_terminal_idempotence_witness :
    (((AsyncEventQueue.new String 2).fail "boom").1).complete =
      (((AsyncEventQueue.new String 2).fail "boom").1, []) ∧
    (((AsyncEventQueue.new String 2).fail "boom").1).fail "boom" =
      (((AsyncEventQueue.new String 2).fail "boom").1, []) := by
  have h := c3_amended_terminal_idempotence
    (((AsyncEventQueue.new String 2).fail "boom").1) rfl rfl
  exact ⟨h.1, h.2 "boom" rfl⟩

/-- Under the push conditions of interest (live queue, no pending consumer,
buffer within capacity) and a positive capacity, a batch of pushes leaves
exactly the most recent `maxSize`-suffix of buffer-plus-batch in the buffer. -/
theorem AsyncEventQueue.pushAll_drop_oldest {T : Type} (vs : List T) :
    ∀ q : AsyncEventQueue T, q.done = false → q.pending = 0 →
      1 ≤ q.maxSize → q.queue.length ≤ q.maxSize →
      (q.pushAll vs).queue =
        (q.queue ++ vs).drop (q.queue.length + vs.length - q.maxSize) := by
  induction vs with
  | nil =>
    intro q _ _ _ hlen
    have h0 : q.queue.length - q.maxSize = 0 := by omega
    simp [AsyncEventQueue.pushAll_nil, h0]
  | cons v rest ih =>
    intro q hdone hp hC hlen
    rw [AsyncEventQueue.pushAll_cons]
    by_cases hfull : q.maxSize ≤ q.queue.length
    · have heq : q.queue.length = q.maxSize := le_antisymm hlen hfull
      have hone : 1 ≤ q.queue.length := by omega
      have hpush : (q.push v).1 = { q with queue := q.queue.drop 1 ++ [v] } := by
        simp [AsyncEventQueue.push, hdone, hp, hfull]
      rw [hpush]
      have hlen1 : (q.queue.drop 1 ++ [v]).length ≤ q.maxSize := by
        simp only [List.length_append, List.length_drop, List.length_cons,
          List.length_nil]
        omega
      rw [ih { q with queue := q.queue.drop 1 ++ [v] } (by simp [hdone])
        (by simp [hp]) (by simp [hC]) (by simpa using hlen1)]
      simp only [List.length_append, List.length_drop, List.length_cons,
        List.length_nil, List.append_assoc, List.singleton_append]
      have hamt1 : q.queue.length - 1 + 1 + rest.length - q.maxSize =
          rest.length := by omega
      have hamt2 : q.queue.length + (rest.length + 1) - q.maxSize =
          rest.length + 1 := by omega
      rw [hamt1, hamt2]
      have hsplit : (q.queue ++ v :: rest).drop (rest.length + 1) =
          ((q.queue ++ v :: rest).drop 1).drop rest.length := by
        rw [List.drop_drop, Nat.add_comm]
      rw [hsplit, List.drop_append_of_le_length hone]
    · have hpush : (q.push v).1 = { q with queue := q.queue ++ [v] } := by
        simp [AsyncEventQueue.push, hdone, hp, hfull]
      rw [hpush]
      have hlen1 : (q.queue ++ [v]).length ≤ q.maxSize := by
        simp only [List.length_append, List.length_cons, List.length_nil]
        omega
      rw [ih { q with queue := q.queue ++ [v] } (by simp [hdone])
        (by simp [hp]) (by simp [hC]) (by simpa using hlen1)]
      simp only [List.length_append, List.length_cons, List.length_nil,
        List.append_assoc, List.singleton_append]
      have hamt : q.queue.length + 1 + rest.length - q.maxSize =
          q.queue.length + (rest.length + 1) - q.maxSize := by omega
      rw [hamt]

/-- C4 counterexample.  The claim quantifies over every capacity `C`.  With
`C = 0` a single push already leaves one element in the buffer — the guard
`queue.length >= maxSize` shifts from an empty array (a no-op) and then
appends — so the buffer holds more than `C` elements. -/
theorem c4_counterexample :
    ¬ ((((AsyncEventQueue.new String 0).push "a").1).queue.length ≤ 0) := by
  decide

/-- C4 amended.  For every positive capacity `C` and every push sequence with
no consumer pending, the buffer never exceeds `C` elements and always holds
exactly the most recent `min(K, C)` pushed values in order (the
`(K - C)`-dropped suffix); moreover whenever a push arrives with the buffer
at capacity, the oldest buffered value is evicted before the new one is
appended.  The producer is never blocked: `push` is a total state transition.
The `C = 0` case is excluded: there a push buffers one element, exceeding the
nominal capacity. -/
theorem c4_amended_bounded_drop_oldest {T : Type} (C : Nat) (hC : 1 ≤ C)
    (vs : List T) :
    ((AsyncEventQueue.new T C).pushAll vs).queue = vs.drop (vs.length - C) ∧
    ((AsyncEventQueue.new T C).pushAll vs).queue.length ≤ C ∧
    (∀ (p : AsyncEventQueue T) (v : T), p.done = false → p.pending = 0 →
      p.maxSize = C → p.queue.length = C →
      (p.push v).1.queue = p.queue.drop 1 ++ [v]) := by
  have hmain := AsyncEventQueue.pushAll_drop_oldest vs (AsyncEventQueue.new T C)
    rfl rfl hC (by simp [AsyncEventQueue.new])
  rw [show (AsyncEventQueue.new T C).queue = [] from rfl,
    show (AsyncEventQueue.new T C).maxSize = C from rfl] at hmain
  simp only [List.nil_append, List.length_nil, Nat.zero_add] at hmain
  refine ⟨hmain, ?_, ?_⟩
  · rw [hmain]
    simp only [List.length_drop]
    omega
  · intro p v hdone hp hmax hfull
    have hge : p.maxSize ≤ p.queue.length := by omega
    simp [AsyncEventQueue.push, hdone, hp, hge]

/-- Witness for the amended C4: capacity 2, four pushes retain the last two
values, within bound, and a push at capacity evicts the oldest. -/
theorem c4_amended_bounded_drop_oldest_witness :
    ((AsyncEventQueue.new String 2).pushAll ["a", "b", "c", "d"]).queue =
      ["c", "d"] ∧
    ((AsyncEventQueue.new String 2).pushAll ["a", "b", "c", "d"]).queue.length ≤ 2 ∧
    ((AsyncEventQueue.mk ["x", "y"] 0 false none 2).push "z").1.queue =
      ["y", "z"] := by
  have h := c4_amended_bounded_drop_oldest 2 (by decide) ["a", "b", "c", "d"]
  refine ⟨by simpa using h.1, h.2.1, ?_⟩
  have h3 := h.2.2 (AsyncEventQueue.mk ["x", "y"] 0 false none 2) "z"
    rfl rfl rfl (by decide)
  simpa using h3

/-- C5.  At provider "openrouter" with a schema accepting strings and a
conforming backend output, `ai_sdk_structured` hands back the whole
`generateObject` response record (an object wrapping the generated value
under an `object` field, next to metadata) instead of the schema-conforming
value itself, which the default branch does return; nonconforming backend
output is rejected on both branches. -/
theorem c5_openrouter_returns_wrapper :
    ai_sdk_structured "openrouter" isStringSchema (JsValue.str "x") 7 =
      Except.ok (JsValue.obj
        [("object", JsValue.str "x"), ("usage", JsValue.num 7)]) ∧
    ai_sdk_structured "openrouter" isStringSchema (JsValue.str "x") 7 ≠
      Except.ok (JsValue.str "x") ∧
    ai_sdk_structured "google" isStringSchema (JsValue.str "x") 7 =
      Except.ok (JsValue.str "x") ∧
    ai_sdk_structured "openrouter" isStringSchema (JsValue.num 3) 7 =
      Except.error "schema validation failed" ∧
    ai_sdk_structured "google" isStringSchema (JsValue.num 3) 7 =
      Except.error "schema validation failed" := by
  refine ⟨rfl, ?_, rfl, rfl, rfl⟩
  intro h
  have h2 : Except.ok (JsValue.obj
      [("object", JsValue.str "x"), ("usage", JsValue.num 7)]) =
      (Except.ok (JsValue.str "x") : Except String JsValue) := h
  injection h2 with h3
  exact JsValue.noConfusion h3

/-- C6 counterexample.  Trace: one delta pushed and consumed, then the caller
invokes `abort()` — the text queue now reports end-of-sequence — and then the
session emits a late `session.error` event.  The handler is still subscribed
(abort neither unsubscribes nor sets the cleanup flag), so the event is
processed: it overwrites the queues' terminal state, and the consumer's next
pull now rejects instead of reporting end-of-sequence, contradicting the
claim that no post-abort event changes what the consumer observes. -/
theorem c6_counterexample :
    (((abortStream { initialStreamState with
        textQueue :=
          ((((initialStreamState.textQueue).push "He").1).next).2 }).textQueue).next).1 =
      NextResult.done ∧
    (((deliverEvent false
        (abortStream { initialStreamState with
          textQueue :=
            ((((initialStreamState.textQueue).push "He").1).next).2 })
        (SessionEvent.sessionError (some "late"))).textQueue).next).1 =
      NextResult.error ("Copilot streaming error: " ++ "late") := by
  exact ⟨rfl, rfl⟩

/-- C6 amended.  After `abort()` both queues are completed, not failed
(`done` set, no terminal error), so a consumer whose buffer is drained
immediately observes end-of-sequence; delta and idle events delivered after
the abort leave the state bit-for-bit unchanged.  However a `session.error`
event emitted after the abort is still processed — the abort control neither
unsubscribes nor marks cleanup — and it fails both queues, changing what the
consumer subsequently observes (see the counterexample). -/
theorem c6_amended_abort_completes (st : CopilotStreamState)
    (hterr : st.textQueue.error = none) (hrerr : st.reasoningQueue.error = none)
    (htp : st.textQueue.pending = 0) (hrp : st.reasoningQueue.pending = 0) :
    (abortStream st).sessionAborted = true ∧
    (abortStream st).textQueue.done = true ∧
    (abortStream st).textQueue.error = none ∧
    (abortStream st).reasoningQueue.done = true ∧
    (abortStream st).reasoningQueue.error = none ∧
    ((abortStream st).textQueue.queue = [] →
      (((abortStream st).textQueue).next).1 = NextResult.done) ∧
    ((abortStream st).reasoningQueue.queue = [] →
      (((abortStream st).reasoningQueue).next).1 = NextResult.done) ∧
    (∀ f d, deliverEvent f (abortStream st) (SessionEvent.messageDelta d) =
      abortStream st) ∧
    (∀ f d, deliverEvent f (abortStream st) (SessionEvent.reasoningDelta d) =
      abortStream st) ∧
    (∀ f, deliverEvent f (abortStream st) SessionEvent.sessionIdle =
      abortStream st) := by
  obtain ⟨tq, rq, cu, us, dc, wc, ab⟩ := st
  obtain ⟨tqs, tp, td, te, tm⟩ := tq
  obtain ⟨rqs, rp, rd, re, rm⟩ := rq
  simp only at hterr hrerr htp hrp
  subst hterr hrerr htp hrp
  refine ⟨rfl, rfl, rfl, rfl, rfl, ?_, ?_, ?_, ?_, ?_⟩
  · intro hq
    simp only [abortStream, AsyncEventQueue.complete] at hq ⊢
    simp [AsyncEventQueue.next, hq]
  · intro hq
    simp only [abortStream, AsyncEventQueue.complete] at hq ⊢
    simp [AsyncEventQueue.next, hq]
  · intro f d
    by_cases hus : us
    · simp [deliverEvent, abortStream, AsyncEventQueue.complete, hus]
    · cases d with
      | none =>
        simp [deliverEvent, abortStream, AsyncEventQueue.complete, hus,
          handleEvent]
      | some s =>
        simp [deliverEvent, abortStream, AsyncEventQueue.complete, hus,
          handleEvent, AsyncEventQueue.push]
  · intro f d
    by_cases hus : us
    · simp [deliverEvent, abortStream, AsyncEventQueue.complete, hus]
    · cases d with
      | none =>
        simp [deliverEvent, abortStream, AsyncEventQueue.complete, hus,
          handleEvent]
      | some s =>
        simp [deliverEvent, abortStream, AsyncEventQueue.complete, hus,
          handleEvent, AsyncEventQueue.push]
  · intro f
    by_cases hus : us
    · simp [deliverEvent, abortStream, AsyncEventQueue.complete, hus]
    · simp [deliverEvent, abortStream, AsyncEventQueue.complete, hus,
        handleEvent]

/-- Witness for the amended C6 on the freshly-created stream state. -/
theorem c6_amended_abort_completes_witness :
    (((abortStream initialStreamState).textQueue).next).1 = NextResult.done ∧
    deliverEvent false (abortStream initialStreamState)
      (SessionEvent.messageDelta (some "x")) = abortStream initialStreamState := by
  have h := c6_amended_abort_completes initialStreamState rfl rfl rfl rfl
  exact ⟨h.2.2.2.2.2.1 rfl, h.2.2.2.2.2.2.2.1 false (some "x")⟩

/-- C7.  A `session.error` event delivered mid-stream (router subscribed,
cleanup not yet performed) fails both queues with the descriptive error
containing the backend-reported message, marks teardown done (unsubscribes
and invokes destroy once more than before), and surfaces the error to a
drained consumer through a rejected pull; the handler itself is a total
state transition, so the error never becomes a function-return failure of
`copilot_sdk_streaming`, which has already produced its result. -/
theorem c7_session_error_fails_queues (st : CopilotStreamState) (f : Bool)
    (m : String) (hm : m ≠ "") (hsub : st.unsubscribed = false)
    (hcl : st.cleanedUp = false) :
    (deliverEvent f st (SessionEvent.sessionError (some m))).textQueue.error =
      some ("Copilot streaming error: " ++ m) ∧
    (deliverEvent f st (SessionEvent.sessionError (some m))).reasoningQueue.error =
      some ("Copilot streaming error: " ++ m) ∧
    (deliverEvent f st (SessionEvent.sessionError (some m))).textQueue.done =
      true ∧
    (deliverEvent f st (SessionEvent.sessionError (some m))).reasoningQueue.done =
      true ∧
    (deliverEvent f st (SessionEvent.sessionError (some m))).cleanedUp = true ∧
    (deliverEvent f st (SessionEvent.sessionError (some m))).unsubscribed =
      true ∧
    (deliverEvent f st (SessionEvent.sessionError (some m))).destroyCalls =
      st.destroyCalls + 1 ∧
    (st.textQueue.queue = [] →
      ((((deliverEvent f st (SessionEvent.sessionError (some m)))).textQueue).next).1 =
        NextResult.error ("Copilot streaming error: " ++ m)) := by
  have hjs : jsOrString (some m) "Unknown error" = m := by
    simp [jsOrString, hm]
  obtain ⟨tq, rq, cu, us, dc, wc, ab⟩ := st
  simp only at hsub hcl
  subst hsub hcl
  refine ⟨?_, ?_, ?_, ?_, ?_, ?_, ?_, ?_⟩
  · cases f <;> simp [deliverEvent, handleEvent, performCleanup,
      sessionDestroy, AsyncEventQueue.fail, hjs]
  · cases f <;> simp [deliverEvent, handleEvent, performCleanup,
      sessionDestroy, AsyncEventQueue.fail, hjs]
  · cases f <;> simp [deliverEvent, handleEvent, performCleanup,
      sessionDestroy, AsyncEventQueue.fail]
  · cases f <;> simp [deliverEvent, handleEvent, performCleanup,
      sessionDestroy, AsyncEventQueue.fail]
  · cases f <;> simp [deliverEvent, handleEvent, performCleanup,
      sessionDestroy]
  · cases f <;> simp [deliverEvent, handleEvent, performCleanup,
      sessionDestroy]
  · cases f <;> simp [deliverEvent, handleEvent, performCleanup,
      sessionDestroy]
  · intro hq
    simp only at hq
    cases f <;> simp [deliverEvent, handleEvent, performCleanup,
      sessionDestroy, AsyncEventQueue.fail, AsyncEventQueue.next, hjs, hq]

/-- Witness for C7 with the backend message "rate limited" on the fresh
stream state. -/
theorem c7_session_error_fails_queues_witness :
    (deliverEvent false initialStreamState
      (SessionEvent.sessionError (some "rate limited"))).textQueue.error =
      some ("Copilot streaming error: " ++ "rate limited") ∧
    (deliverEvent false initialStreamState
      (SessionEvent.sessionError (some "rate limited"))).destroyCalls = 0 + 1 ∧
    ((((deliverEvent false initialStreamState
      (SessionEvent.sessionError (some "rate limited")))).textQueue).next).1 =
      NextResult.error ("Copilot streaming error: " ++ "rate limited") := by
  have h := c7_session_error_fails_queues initialStreamState false
    "rate limited" (by decide) rfl rfl
  exact ⟨h.1, h.2.2.2.2.2.2.1, h.2.2.2.2.2.2.2 rfl⟩

/-- C8.  When `session.send` throws, `copilot_sdk_streaming` fails both
queues with the dispatch error and performs teardown (cleanup flag set,
unsubscribed, destroy invoked exactly once) before re-raising that same
error to the caller; a consumer pulling either queue in the returned state
is rejected immediately rather than suspended, so no queue can hang
forever. -/
theorem c8_dispatch_failure_cleans_up (conversation : List Message)
    (e : String) (f : Bool)
    (h : conversation.filter (fun m => m.role == Role.user) ≠ []) :
    ∃ st, copilot_sdk_streaming conversation (some e) f =
        CopilotOutcome.dispatchFailed e st ∧
      st.textQueue.error = some e ∧ st.reasoningQueue.error = some e ∧
      st.textQueue.done = true ∧ st.reasoningQueue.done = true ∧
      st.cleanedUp = true ∧ st.unsubscribed = true ∧ st.destroyCalls = 1 ∧
      ((st.textQueue).next).1 = NextResult.error e ∧
      ((st.reasoningQueue).next).1 = NextResult.error e := by
  have hsome : ((conversation.filter (fun m => m.role == Role.user)).getLast?).isSome := by
    rw [List.getLast?_isSome]; exact h
  obtain ⟨u, hu⟩ := Option.isSome_iff_exists.mp hsome
  refine ⟨performCleanup f { initialStreamState with
      textQueue := ((initialStreamState.textQueue).fail e).1,
      reasoningQueue := ((initialStreamState.reasoningQueue).fail e).1 },
    ?_, ?_, ?_, ?_, ?_, ?_, ?_, ?_, ?_, ?_⟩
  · simp [copilot_sdk_streaming, hu]
  · cases f <;> rfl
  · cases f <;> rfl
  · cases f <;> rfl
  · cases f <;> rfl
  · cases f <;> rfl
  · cases f <;> rfl
  · cases f <;> rfl
  · cases f <;> rfl
  · cases f <;> rfl

/-- Witness for C8: a one-message conversation and a concrete send error. -/
theorem c8_dispatch_failure_cleans_up_witness :
    ∃ st, copilot_sdk_streaming [⟨Role.user, "hi"⟩] (some "send failed") false =
        CopilotOutcome.dispatchFailed "send failed" st ∧
      st.textQueue.error = some "send failed" ∧
      st.reasoningQueue.error = some "send failed" ∧
      st.textQueue.done = true ∧ st.reasoningQueue.done = true ∧
      st.cleanedUp = true ∧ st.unsubscribed = true ∧ st.destroyCalls = 1 ∧
      ((st.textQueue).next).1 = NextResult.error "send failed" ∧
      ((st.reasoningQueue).next).1 = NextResult.error "send failed" :=
  c8_dispatch_failure_cleans_up [⟨Role.user, "hi"⟩] "send failed" false
    (by decide)

/-- Cleanup on an already-cleaned state is a no-op. -/
theorem performCleanup_of_cleanedUp (f : Bool) (st : CopilotStreamState)
    (h : st.cleanedUp = true) : performCleanup f st = st := by
  simp [performCleanup, h]

/-- A whole batch of cleanup invocations on an already-cleaned state is a
no-op. -/
theorem cleanupMany_of_cleanedUp (flags : List Bool) :
    ∀ st : CopilotStreamState, st.cleanedUp = true → cleanupMany flags st = st := by
  induction flags with
  | nil => intro st _; rfl
  | cons f rest ih =>
    intro st h
    show cleanupMany rest (performCleanup f st) = st
    rw [performCleanup_of_cleanedUp f st h, ih st h]

/-- A first effective cleanup sets the one-shot flag, unsubscribes, and
counts one destroy invocation, whether or not destroy throws. -/
theorem performCleanup_first (f : Bool) (st : CopilotStreamState)
    (h : st.cleanedUp = false) :
    (performCleanup f st).cleanedUp = true ∧
    (performCleanup f st).unsubscribed = true ∧
    (performCleanup f st).destroyCalls = st.destroyCalls + 1 := by
  cases f <;> simp [performCleanup, sessionDestroy, h]

/-- C9.  Teardown is one-shot: for every nonempty sequence of cleanup
invocations from any triggers, with each invocation's destroy independently
throwing or not, `session.destroy` is invoked exactly once in total; a
throwing destroy is caught (the invocation still returns a state, with the
failure logged once via the warning counter) and a successful one logs
nothing. -/
theorem c9_cleanup_one_shot (flags : List Bool) (hne : flags ≠ [])
    (st : CopilotStreamState) (hcl : st.cleanedUp = false) :
    (cleanupMany flags st).destroyCalls = st.destroyCalls + 1 ∧
    (cleanupMany flags st).cleanedUp = true ∧
    (performCleanup true st).warnCount = st.warnCount + 1 ∧
    (performCleanup false st).warnCount = st.warnCount := by
  match flags with
  | [] => exact absurd rfl hne
  | f :: rest =>
    have hfirst := performCleanup_first f st hcl
    have hrest := cleanupMany_of_cleanedUp rest (performCleanup f st) hfirst.1
    have hmany : cleanupMany (f :: rest) st = performCleanup f st := by
      show cleanupMany rest (performCleanup f st) = performCleanup f st
      exact hrest
    refine ⟨?_, ?_, ?_, ?_⟩
    · rw [hmany]; exact hfirst.2.2
    · rw [hmany]; exact hfirst.1
    · simp [performCleanup, sessionDestroy, hcl]
    · simp [performCleanup, sessionDestroy, hcl]

/-- Witness for C9: two invocations, the first with a throwing destroy. -/
theorem c9_cleanup_one_shot_witness :
    (cleanupMany [true, false] initialStreamState).destroyCalls = 0 + 1 ∧
    (cleanupMany [true, false] initialStreamState).cleanedUp = true := by
  have h := c9_cleanup_one_shot [true, false] (by decide) initialStreamState rfl
  exact ⟨h.1, h.2.1⟩

/-- C10.  With a dispatchable conversation, `copilot_sdk_completion` returns
the empty string — never a null-like value, the return type is a plain
string — whenever the resolved response is nullish, carries no `data`, no
`content`, or an empty `content`; and in every case, including a throwing
`sendAndWait`, the `finally` block destroys the session exactly once (a
destroy failure is swallowed, so nothing depends on the flag `f`). -/
theorem c10_completion_empty_content (conversation : List Message) (f : Bool)
    (h : conversation.filter (fun m => m.role == Role.user) ≠ []) :
    copilot_sdk_completion conversation (Except.ok none) f =
      (Except.ok "", 1) ∧
    copilot_sdk_completion conversation (Except.ok (some ⟨none⟩)) f =
      (Except.ok "", 1) ∧
    copilot_sdk_completion conversation (Except.ok (some ⟨some ⟨none⟩⟩)) f =
      (Except.ok "", 1) ∧
    copilot_sdk_completion conversation (Except.ok (some ⟨some ⟨some ""⟩⟩)) f =
      (Except.ok "", 1) ∧
    (∀ e, copilot_sdk_completion conversation (Except.error e) f =
      (Except.error e, 1)) := by
  have hsome : ((conversation.filter (fun m => m.role == Role.user)).getLast?).isSome := by
    rw [List.getLast?_isSome]; exact h
  obtain ⟨u, hu⟩ := Option.isSome_iff_exists.mp hsome
  refine ⟨?_, ?_, ?_, ?_, fun e => ?_⟩ <;>
    simp [copilot_sdk_completion, hu, jsOrString]

/-- Witness for C10: one-message conversation, nullish response and a
throwing `sendAndWait`. -/
theorem c10_completion_empty_content_witness :
    copilot_sdk_completion [⟨Role.user, "hi"⟩] (Except.ok none) false =
      (Except.ok "", 1) ∧
    copilot_sdk_completion [⟨Role.user, "hi"⟩] (Except.error "boom") false =
      (Except.error "boom", 1) := by
  have h := c10_completion_empty_content [⟨Role.user, "hi"⟩] false (by decide)
  exact ⟨h.1, h.2.2.2.2 "boom"⟩

end Caret
